import Mathlib

/-!
Verification of the multi-strategy filming-location extraction engine
(`src/usr/src/app/src/main.js`).

The engine is embedded shallowly:

* text is `List Char` (`Str`), mirroring JavaScript strings over code points;
* numbers parsed from text are `ℚ` (the source uses IEEE doubles via
  `parseFloat` / `Number`; every concrete value appearing in the claims is a
  short decimal literal, represented exactly both by doubles and by `ℚ`);
* the regular expressions of the source are compiled by hand into
  deterministic scanners, split into a capture stage (lists of characters)
  and a numeric conversion stage.  Each scanner documents the regex it
  implements and follows JavaScript `String.match` / `String.replace`
  semantics: scan start positions left to right, and at a given start
  position resolve greedy / lazy quantifiers exactly as the backtracking
  engine would (for every regex in this file the backtracking is forced, as
  argued in the comments);
* DOM access through cheerio (`$('h2,h3,h4')`, `$('li')`, …) is opaque to the
  algorithm: the lists of element texts that the selectors return are inputs
  of the embedded orchestrator, while every decision taken on them in
  `extractFromCheerio` (activation conditions, keyword filter, merge order,
  normalisation, record construction) is embedded faithfully.
-/

/-- JavaScript strings, as lists of characters. -/
abbrev Str := List Char

/-- The character class `\s` of JavaScript regular expressions, and the set of
characters removed by `String.prototype.trim` (ECMA-262 WhiteSpace and
LineTerminator). -/
def isSpaceJs (c : Char) : Bool :=
  c = ' ' || c = '\t' || c = '\n' || c = '\r' ||
  c = Char.ofNat 11 || c = Char.ofNat 12 || c = Char.ofNat 160 ||
  c = Char.ofNat 0x1680 || (0x2000 ≤ c.toNat && c.toNat ≤ 0x200A) ||
  c = Char.ofNat 0x2028 || c = Char.ofNat 0x2029 || c = Char.ofNat 0x202F ||
  c = Char.ofNat 0x205F || c = Char.ofNat 0x3000 || c = Char.ofNat 0xFEFF

/-- ASCII lower-casing of a character; models the simple case folding used by
the `/i` regex flag and `toLowerCase` on the ASCII patterns of the source. -/
def lowerChar (c : Char) : Char :=
  if 'A' ≤ c ∧ c ≤ 'Z' then Char.ofNat (c.toNat + 32) else c

/-- ASCII upper-casing of a character; models `String.prototype.toUpperCase`
on the single hemisphere letters `[NnSsEeWw]` captured by the DMS regex. -/
def upperHem (c : Char) : Char :=
  if 'a' ≤ c ∧ c ≤ 'z' then Char.ofNat (c.toNat - 32) else c

/-- The apostrophe character `U+0027`, one of the two minute markers accepted
by the DMS regex class. -/
def aposChar : Char := Char.ofNat 39

/-- The double-quote character `U+0022`, one of the two second markers
accepted by the DMS regex class. -/
def quotChar : Char := Char.ofNat 34

/-- The `\x7b` character opening a wiki template. -/
def lbraceChar : Char := Char.ofNat 123

/-- The `\x7d` character closing a wiki template. -/
def rbraceChar : Char := Char.ofNat 125

/-- Value of a list of ASCII digits read in base 10, as by `parseFloat` /
`Number` on the digit strings captured by the coordinate regexes. -/
def digitsToNat (ds : List Char) : Nat :=
  ds.foldl (fun acc c => 10 * acc + (c.toNat - 48)) 0

/-! ## Coordinate parser (`tryParseCoordinates`, main.js lines 37-62) -/

/-- A latitude/longitude pair as returned by `tryParseCoordinates`. -/
structure Coordinates where
  latitude : ℚ
  longitude : ℚ
deriving DecidableEq, Repr

/-- Captures of one `-?\d{1,3}\.\d+` group: sign, integer digits, fractional
digits. -/
structure DecCap where
  neg : Bool
  intDigits : List Char
  fracDigits : List Char
deriving DecidableEq, Repr

/-- `parseFloat` on a captured decimal literal. -/
def decCapValue (c : DecCap) : ℚ :=
  (if c.neg then -1 else 1) *
    ((digitsToNat c.intDigits : ℚ) +
      (digitsToNat c.fracDigits : ℚ) / 10 ^ c.fracDigits.length)

/-- Matcher for `-?\d{1,3}\.\d+` anchored at the start of `s`; returns the
captures and the rest of the input.  The quantifiers are forced: fewer
integer digits than the whole digit run would put a digit where `\.` must
match, and fewer fractional digits would put a digit where the following
regex atom (a separator or end of pattern, never a digit) must match. -/
def matchDecNum (s : Str) : Option (DecCap × Str) :=
  let negRest : Bool × Str :=
    match s with
    | c :: r => if c = '-' then (true, r) else (false, s)
    | [] => (false, s)
  let (ds, s1) := negRest.2.span Char.isDigit
  if ds.length = 0 ∨ 3 < ds.length then none else
  match s1 with
  | c :: s2 =>
    if c = '.' then
      let (fs, s3) := s2.span Char.isDigit
      if fs.length = 0 then none
      else some (⟨negRest.1, ds, fs⟩, s3)
    else none
  | [] => none

/-- Matcher for the separator `\s*[,\s]\s*` anchored at the start of `s`,
given that a decimal number (first character `-` or a digit, never a comma or
whitespace) must follow.  Under that continuation the regex consumes exactly
the maximal run of commas/whitespace, and matches iff that run is non-empty
and contains at most one comma. -/
def matchDecSep (s : Str) : Option Str :=
  let (run, rest) := s.span (fun c => isSpaceJs c || c = ',')
  if run.length = 0 then none
  else if 1 < (run.filter (fun c => c = ',')).length then none
  else some rest

/-- The decimal coordinate regex
`(-?\d{1,3}\.\d+)\s*[,\s]\s*(-?\d{1,3}\.\d+)` anchored at the start of `s`. -/
def decMatchAt (s : Str) : Option (DecCap × DecCap) :=
  match matchDecNum s with
  | none => none
  | some (a, s1) =>
    match matchDecSep s1 with
    | none => none
    | some s2 =>
      match matchDecNum s2 with
      | none => none
      | some (b, _) => some (a, b)

/-- First (leftmost) match of the decimal coordinate regex in `s`, as
`text.match(...)` returns it (main.js line 39). -/
def decFirstMatch : Str → Option (DecCap × DecCap)
  | [] => none
  | c :: cs =>
    match decMatchAt (c :: cs) with
    | some r => some r
    | none => decFirstMatch cs

/-- Captures of one DMS match (main.js line 46): degree and minute digit
strings, optional seconds group (integer digits and possibly empty fraction
digits) and hemisphere letter, per axis. -/
structure DmsRaw where
  latDeg : List Char
  latMin : List Char
  latSec : Option (List Char × List Char)
  latHem : Char
  lonDeg : List Char
  lonMin : List Char
  lonSec : Option (List Char × List Char)
  lonHem : Char
deriving DecidableEq, Repr

/-- `Number(capture || 0)` on an optional seconds capture (main.js lines
51, 55): `0` when the group did not participate in the match. -/
def secValue : Option (List Char × List Char) → ℚ
  | none => 0
  | some (si, sf) => (digitsToNat si : ℚ) + (digitsToNat sf : ℚ) / 10 ^ sf.length

/-- Matcher for the optional seconds group `(\d{1,2}(?:\.\d+)?)?` of the DMS
regex, anchored at the start of `s` and followed by `[″"]?\s*` and a
hemisphere letter.  Returns the capture (`none` when the group is absent)
and the rest; returns `none` overall when the regex cannot continue at this
start position at all (a digit run longer than two, or a decimal point not
followed by digits, leaves a character that no following atom can match). -/
def matchSecondsOpt (s : Str) : Option (Option (List Char × List Char) × Str) :=
  let (ss, r) := s.span Char.isDigit
  if ss.length = 0 then some (none, s)
  else if 2 < ss.length then none
  else
    match r with
    | c :: r2 =>
      if c = '.' then
        let (fs, r3) := r2.span Char.isDigit
        if fs.length = 0 then none
        else some (some (ss, fs), r3)
      else some (some (ss, []), r)
    | [] => some (some (ss, []), r)

/-- Matcher for one axis of the DMS regex,
`(\d{1,3})[°\s]+(\d{1,2})[′']\s*(\d{1,2}(?:\.\d+)?)?[″"]?\s*(hemisphere)`,
anchored at the start of `s`.  `hems` is the hemisphere character class
(`[NnSs]` or `[EeWw]`).  All quantifiers are forced, since digits, `[°\s]`,
the markers and the hemisphere letters are pairwise disjoint character
sets. -/
def matchDmsAxis (hems : List Char) (s : Str) :
    Option (List Char × List Char × Option (List Char × List Char) × Char × Str) :=
  let (ds, s1) := s.span Char.isDigit
  if ds.length = 0 ∨ 3 < ds.length then none else
  let (mark, s2) := s1.span (fun c => c = '°' || isSpaceJs c)
  if mark.length = 0 then none else
  let (ms, s3) := s2.span Char.isDigit
  if ms.length = 0 ∨ 2 < ms.length then none else
  match s3 with
  | [] => none
  | c :: s4 =>
    if c = '′' ∨ c = aposChar then
      let s5 := s4.dropWhile isSpaceJs
      match matchSecondsOpt s5 with
      | none => none
      | some (sec, s6) =>
        let s7 : Str :=
          match s6 with
          | c2 :: r => if c2 = '″' ∨ c2 = quotChar then r else s6
          | [] => s6
        let s8 := s7.dropWhile isSpaceJs
        match s8 with
        | h :: s9 => if h ∈ hems then some (ds, ms, sec, h, s9) else none
        | [] => none
    else none

/-- The separator `\s*,?\s*` between the two DMS axes; always succeeds,
consuming whitespace, then at most one comma, then whitespace. -/
def matchAxisSep (s : Str) : Str :=
  let s1 := s.dropWhile isSpaceJs
  let s2 : Str :=
    match s1 with
    | c :: r => if c = ',' then r else s1
    | [] => s1
  s2.dropWhile isSpaceJs

/-- The full DMS regex of main.js line 46, anchored at the start of `s`. -/
def dmsMatchAt (s : Str) : Option DmsRaw :=
  match matchDmsAxis ['N', 'n', 'S', 's'] s with
  | none => none
  | some (d1, m1, sec1, h1, r1) =>
    match matchDmsAxis ['E', 'e', 'W', 'w'] (matchAxisSep r1) with
    | none => none
    | some (d2, m2, sec2, h2, _) => some ⟨d1, m1, sec1, h1, d2, m2, sec2, h2⟩

/-- First (leftmost) match of the DMS regex in `s`. -/
def dmsFirstMatch : Str → Option DmsRaw
  | [] => none
  | c :: cs =>
    match dmsMatchAt (c :: cs) with
    | some r => some r
    | none => dmsFirstMatch cs

/-- Decimal latitude from a DMS match:
`(latDeg + latMin / 60 + latSec / 3600) * (latHem === 'S' ? -1 : 1)` after
`toUpperCase` (main.js line 57). -/
def dmsLatValue (g : DmsRaw) : ℚ :=
  ((digitsToNat g.latDeg : ℚ) + (digitsToNat g.latMin : ℚ) / 60 + secValue g.latSec / 3600) *
    (if upperHem g.latHem = 'S' then -1 else 1)

/-- Decimal longitude from a DMS match (main.js line 58). -/
def dmsLonValue (g : DmsRaw) : ℚ :=
  ((digitsToNat g.lonDeg : ℚ) + (digitsToNat g.lonMin : ℚ) / 60 + secValue g.lonSec / 3600) *
    (if upperHem g.lonHem = 'W' then -1 else 1)

/-- `tryParseCoordinates` (main.js lines 37-62): try the decimal regex first
(its captures are digit strings, so the `Number.isNaN` guard of line 43 never
fires), then the DMS regex, else `null`. -/
def tryParseCoordinates (t : Str) : Option Coordinates :=
  match decFirstMatch t with
  | some (la, lo) => some ⟨decCapValue la, decCapValue lo⟩
  | none =>
    match dmsFirstMatch t with
    | some g => some ⟨dmsLatValue g, dmsLonValue g⟩
    | none => none

/-- The actor input destructures a `validateCoordinates` flag (main.js line
25).  No other line of main.js mentions the flag; in particular the
coordinate parser never receives it.  This wrapper exposes the parse result
as a function of the configured flag, which the source makes vacuous. -/
def tryParseCoordinatesCfg (validate : Bool) (t : Str) : Option Coordinates :=
  tryParseCoordinates t

example : decFirstMatch (("37.7749, -122.4194").data) =
    some (⟨false, ('3' :: ['7']), ('7' :: ['7', '4', '9'])⟩,
          ⟨true, ('1' :: ['2', '2']), ('4' :: ['1', '9', '4'])⟩) := by decide

example : decFirstMatch (("37.7749° N, 122.4194° W").data) = none := by decide

example : dmsFirstMatch (("37°46′29″N 122°25′10″W").data) =
    some ⟨('3' :: ['7']), ('4' :: ['6']), some (('2' :: ['9']), []), 'N',
          ('1' :: ['2', '2']), ('2' :: ['5']), some (('1' :: ['0']), []), 'W'⟩ := by decide

/-! ## Text utilities shared by the strategies -/

/-- Worker for `replace(/\s+/g, ' ')`: `prevSpace` records whether the
previous input character was part of a whitespace run already replaced. -/
def wsCollapseAux : Bool → Str → Str
  | _, [] => []
  | prevSpace, c :: cs =>
    if isSpaceJs c then
      if prevSpace then wsCollapseAux true cs
      else ' ' :: wsCollapseAux true cs
    else c :: wsCollapseAux false cs

/-- `replace(/\s+/g, ' ')` (main.js line 171): each maximal whitespace run
becomes one space. -/
def wsCollapse (s : Str) : Str := wsCollapseAux false s

/-- Left half of `String.prototype.trim`. -/
def trimLeft (s : Str) : Str := s.dropWhile isSpaceJs

/-- Right half of `String.prototype.trim`. -/
def trimRight : Str → Str
  | [] => []
  | c :: cs =>
    match trimRight cs with
    | [] => if isSpaceJs c then [] else [c]
    | r => c :: r

/-- `String.prototype.trim`. -/
def trim (s : Str) : Str := trimRight (trimLeft s)

/-- `loc.replace(/\s+/g, ' ').trim()` (main.js line 171): the normalised form
of one candidate phrase. -/
def normText (s : Str) : Str := trim (wsCollapse s)

/-- `String.prototype.split` with a single separator character: JavaScript
keeps empty pieces, and splitting the empty string yields `[""]`. -/
def splitOn (sep : Char) : Str → List Str
  | [] => [[]]
  | c :: cs =>
    if c = sep then [] :: splitOn sep cs
    else
      match splitOn sep cs with
      | h :: t => (c :: h) :: t
      | [] => [[c]]

/-- Substring test: does `hay` contain `needle` as a contiguous substring?
Models `RegExp.prototype.test` for a literal alternative. -/
def containsStr (needle : Str) : Str → Bool
  | [] => needle.isEmpty
  | c :: cs => needle.isPrefixOf (c :: cs) || containsStr needle cs

/-- The fallback keyword test
`/filming location|filming locations|locations used|location(s)?/i.test(p)`
(main.js line 149): the text, lower-cased, must contain one of the literal
alternatives (`location(s)?` matches exactly when `location` occurs). -/
def keywordTest (p : Str) : Bool :=
  let lp := p.map lowerChar
  containsStr (("filming location").data) lp ||
  containsStr (("filming locations").data) lp ||
  containsStr (("locations used").data) lp ||
  containsStr (("location").data) lp

/-! ## Strategy merge (`extractFromCheerio`, main.js lines 116-165)

The DOM queries themselves go through cheerio and are inputs here: `dom` is
the list of phrases the heading-walk strategy pushed (lines 119-135),
`imdbCands` the texts of `$('li, .ipl-zebra-list__item, .soda,
.filming-location')`, `paragraphs` the texts of `$('p, li, td')`, and
`wikiLocs` the result of `findFilmingLocationsFromWikiWikitext`.  The Boolean
inputs are the URL regex test, the `$('#filmingLocations').length` test, and
`useWikipediaApi && url.includes('wikipedia.org') && wikitext` (truthy fetch
result). -/

/-- Strategy 2 (main.js lines 138-142): IMDb layout extraction, activated by
the URL pattern or by a `#filmingLocations` element when nothing was found
yet; appends the non-empty candidate texts. -/
def imdbStep (isImdbUrl hasFilmingElem : Bool) (imdbCands : List Str) (locs : List Str) :
    List Str :=
  if isImdbUrl || (hasFilmingElem && locs.isEmpty) then
    locs ++ imdbCands.filter (fun c => !c.isEmpty)
  else locs

/-- Strategy 3 (main.js lines 145-154): generic fallback, appending every
paragraph/list-item/table-cell text containing a location keyword, only when
no candidates exist yet. -/
def fallbackStep (paragraphs : List Str) (locs : List Str) : List Str :=
  if locs.isEmpty then locs ++ paragraphs.filter keywordTest else locs

/-- Strategy 4 (main.js lines 157-165): when the Wikipedia API path is
active and returned a non-empty list, prepend it
(`locations = wikiLocations.concat(locations)`). -/
def wikiStep (wikiAvailable : Bool) (wikiLocs : List Str) (locs : List Str) : List Str :=
  if wikiAvailable && !wikiLocs.isEmpty then wikiLocs ++ locs else locs

/-- The merged candidate list of one page run, strategies applied in source
order. -/
def mergeCandidates (dom : List Str) (isImdbUrl hasFilmingElem : Bool)
    (imdbCands paragraphs : List Str) (wikiAvailable : Bool) (wikiLocs : List Str) :
    List Str :=
  wikiStep wikiAvailable wikiLocs
    (fallbackStep paragraphs (imdbStep isImdbUrl hasFilmingElem imdbCands dom))

/-! ## Normalisation and record construction (main.js lines 167-207) -/

/-- The normalisation loop of main.js lines 168-176: collapse whitespace and
trim, drop falsy or short texts, drop texts already in `seen`, keep the
rest in order. -/
def normalizeLoop (seen : List Str) : List Str → List Str
  | [] => []
  | loc :: rest =>
    let text := normText loc
    if text.isEmpty || text.length < 3 then normalizeLoop seen rest
    else if text ∈ seen then normalizeLoop seen rest
    else text :: normalizeLoop (text :: seen) rest

/-- Normalise and deduplicate the candidate list (`seen` starts empty; the
spec calls this step `normalize`, a name Mathlib already takes). -/
def normalizeCandidates (locs : List Str) : List Str := normalizeLoop [] locs

/-- One dataset record (main.js lines 193-204).  The `extracted_at` wall
clock timestamp is outside the pure transformation and is not modelled. -/
structure LocationRecord where
  movie_title : Str
  year : Str
  location_text : Str
  city : Str
  region : Str
  country : Str
  latitude : Option ℚ
  longitude : Option ℚ
  source_url : Str

/-- `coords.latitude || null` (main.js lines 200-201) over
`tryParseCoordinates(locText) || {}`: an absent field gives `null`, and the
number `0` is falsy, so it also gives `null`. -/
def jsOrNullCoord : Option ℚ → Option ℚ
  | none => none
  | some v => if v = 0 then none else some v

/-- Record construction for one normalised phrase (main.js lines 179-204):
coordinates from the raw phrase, then city/region/country from the comma
split `locText.split(',').map(s => s.trim()).filter(Boolean)`. -/
def mkRecord (title year url locText : Str) : LocationRecord :=
  let coords := tryParseCoordinates locText
  let parts := ((splitOn ',' locText).map trim).filter (fun p => !p.isEmpty)
  let city := parts.headD []
  let region := if 3 ≤ parts.length then parts.getD 1 [] else []
  let country :=
    if parts.length = 2 then parts.getD 1 []
    else if 3 ≤ parts.length then List.intercalate ((", ").data) (parts.drop 2)
    else []
  { movie_title := title
    year := year
    location_text := locText
    city := city
    region := region
    country := country
    latitude := jsOrNullCoord (coords.map Coordinates.latitude)
    longitude := jsOrNullCoord (coords.map Coordinates.longitude)
    source_url := url }

/-- The records pushed to the dataset for one page (main.js line 179):
one per normalised phrase, capped at 200. -/
def pageRecords (title year url : Str) (candidates : List Str) : List LocationRecord :=
  ((normalizeCandidates candidates).take 200).map (mkRecord title year url)

example : normalizeCandidates [("  Paris,   France ").data, ("Paris, France").data] =
    [("Paris, France").data] := by decide

example : (mkRecord [] [] [] (("Paris, France").data)).city = ("Paris").data := by decide

/-! ## Markup section extractor
(`findFilmingLocationsFromWikiWikitext`, main.js lines 86-99)

The four `replace` passes of line 94 are written with an explicit fuel
argument so that they stay structurally recursive (and hence evaluate by
kernel reduction).  Each engine step consumes at least one input character,
so fuel equal to the input length — what the wrappers pass — is never
exhausted; the fuel-out branch returns the rest of the input unchanged. -/

/-- `replace(/'''/g, '')` (main.js line 94), fuelled worker: remove every
(non-overlapping, leftmost-first) occurrence of three apostrophes. -/
def removeBoldF : Nat → Str → Str
  | _, [] => []
  | 0, s => s
  | n + 1, c :: cs =>
    if c = aposChar ∧ cs.take 2 = [aposChar, aposChar] then removeBoldF n (cs.drop 2)
    else c :: removeBoldF n cs

/-- `replace(/'''/g, '')` (main.js line 94). -/
def removeBold (s : Str) : Str := removeBoldF s.length s

/-- The lazy body of `\{\{.*?\}\}`: starting right after an opening `\x7b\x7b`,
find the shortest extension of non-newline characters (`.` does not match a
line terminator) ending before a `\x7d\x7d`; returns the input rest after the
closing braces, or `none` when a newline or the end of input comes first. -/
def skipToClose : Str → Option Str
  | [] => none
  | c :: cs =>
    if c = rbraceChar ∧ cs.head? = some rbraceChar then some cs.tail
    else if c = '\n' then none
    else skipToClose cs

/-- `replace(/\{\{.*?\}\}/g, '')` (main.js line 94), fuelled worker: remove
template invocations.  On a failed match at an opening brace the engine
emits the character and retries at the next position. -/
def removeTemplatesF : Nat → Str → Str
  | _, [] => []
  | 0, s => s
  | n + 1, c :: cs =>
    if c = lbraceChar ∧ cs.head? = some lbraceChar then
      match skipToClose cs.tail with
      | some rest => removeTemplatesF n rest
      | none => c :: removeTemplatesF n cs
    else c :: removeTemplatesF n cs

/-- `replace(/\{\{.*?\}\}/g, '')` (main.js line 94). -/
def removeTemplates (s : Str) : Str := removeTemplatesF s.length s

/-- Matcher for the tail of `\[http[^\]]+\]` after its opening bracket:
literal `http`, then one or more non-`]` characters, then `]`.  Returns the
rest of the input after the closing bracket.  The greedy `[^\]]+` is forced:
it stops exactly at the first `]`. -/
def extLinkMatchAt (body : Str) : Option Str :=
  if body.take 4 = ("http").data then
    let inner := (body.drop 4).takeWhile (fun c => !(c = ']' : Bool))
    let r := (body.drop 4).dropWhile (fun c => !(c = ']' : Bool))
    if inner.isEmpty then none
    else
      match r with
      | _ :: rest => some rest
      | [] => none
  else none

/-- `replace(/\[http[^\]]+\]/g, '')` (main.js line 94), fuelled worker. -/
def removeExtLinksF : Nat → Str → Str
  | _, [] => []
  | 0, s => s
  | n + 1, c :: cs =>
    if c = '[' then
      match extLinkMatchAt cs with
      | some rest => removeExtLinksF n rest
      | none => c :: removeExtLinksF n cs
    else c :: removeExtLinksF n cs

/-- `replace(/\[http[^\]]+\]/g, '')` (main.js line 94). -/
def removeExtLinks (s : Str) : Str := removeExtLinksF s.length s

/-- Matcher for the tail of `\[\[([^\]|]+)(?:\|([^\]]+))?\]\]` after its two
opening brackets, together with the `'$2$1'` replacement of main.js line 94:
on success returns the replacement text (display capture, if any,
concatenated with the target capture — an unmatched `$2` substitutes the
empty string) and the rest of the input.  Both greedy classes are forced:
they stop exactly at the first excluded character. -/
def linkMatchAt (body : Str) : Option (Str × Str) :=
  let tgt := body.takeWhile (fun c => !(c = ']' : Bool) && !(c = '|' : Bool))
  let r1 := body.dropWhile (fun c => !(c = ']' : Bool) && !(c = '|' : Bool))
  if tgt.isEmpty then none
  else
    match r1 with
    | b1 :: b2 :: rest =>
      if b1 = ']' ∧ b2 = ']' then some (tgt, rest)
      else if b1 = '|' then
        let disp := (b2 :: rest).takeWhile (fun c => !(c = ']' : Bool))
        let r3 := (b2 :: rest).dropWhile (fun c => !(c = ']' : Bool))
        if disp.isEmpty then none
        else
          match r3 with
          | d1 :: d2 :: rest2 =>
            if d1 = ']' ∧ d2 = ']' then some (disp ++ tgt, rest2) else none
          | _ => none
      else none
    | _ => none

/-- `replace(/\[\[([^\]|]+)(?:\|([^\]]+))?\]\]/g, '$2$1')` (main.js line 94),
fuelled worker. -/
def rewriteInternalLinksF : Nat → Str → Str
  | _, [] => []
  | 0, s => s
  | n + 1, c :: cs =>
    if c = '[' ∧ cs.head? = some '[' then
      match linkMatchAt cs.tail with
      | some (rep, rest) => rep ++ rewriteInternalLinksF n rest
      | none => c :: rewriteInternalLinksF n cs
    else c :: rewriteInternalLinksF n cs

/-- `replace(/\[\[([^\]|]+)(?:\|([^\]]+))?\]\]/g, '$2$1')` (main.js line 94). -/
def rewriteInternalLinks (s : Str) : Str := rewriteInternalLinksF s.length s

example : rewriteInternalLinks (("[[Paris|City of Light]]").data) =
    ("City of LightParis").data := by decide

example : rewriteInternalLinks (("[[Paris]] and [[Rome]]").data) =
    ("Paris and Rome").data := by decide

/-- Case-insensitive literal matcher (for the `/i` flag): consume `pat`
(given lower-case) from the head of the input, returning the consumed
original characters and the rest. -/
def matchCI : Str → Str → Option (Str × Str)
  | [], s => some ([], s)
  | _ :: _, [] => none
  | p :: ps, c :: cs =>
    if lowerChar c = lowerChar p then
      match matchCI ps cs with
      | some (m, r) => some (c :: m, r)
      | none => none
    else none

/-- The heading part `==+\s*Filming locations\s*==+` of the section regex
(main.js line 89), anchored at the start of `s`.  Every quantifier is
forced (`=`, whitespace and the letters of the literal are disjoint).
Returns the consumed text, the length of the trailing `=` run, and the
rest. -/
def headingAt (s : Str) : Option (Str × Nat × Str) :=
  let eq1 := s.takeWhile (fun c => c = '=')
  let s1 := s.dropWhile (fun c => c = '=')
  if eq1.length < 2 then none else
  let w1 := s1.takeWhile isSpaceJs
  let s2 := s1.dropWhile isSpaceJs
  match matchCI (("filming locations").data) s2 with
  | none => none
  | some (lit, s3) =>
    let w2 := s3.takeWhile isSpaceJs
    let s4 := s3.dropWhile isSpaceJs
    let eq2 := s4.takeWhile (fun c => c = '=')
    let s5 := s4.dropWhile (fun c => c = '=')
    if eq2.length < 2 then none
    else some (eq1 ++ w1 ++ lit ++ w2 ++ eq2, eq2.length, s5)

/-- `m[0]` of the section regex
`/(?:(==+\s*Filming locations\s*==+)[\s\S]*?)(?==+)/i` anchored at the start
of `s`.  After the heading, the lazy `[\s\S]*?` grows to the first later `=`
(the lookahead `(?==+)` needs a single `=`); when no `=` follows at all the
engine backtracks the heading's greedy trailing `==+` by one character —
possible only when that run has length at least 3 — and the lookahead then
succeeds immediately, so the match is the heading minus its final `=`;
otherwise this start position fails. -/
def sectionAt (s : Str) : Option Str :=
  match headingAt s with
  | none => none
  | some (heading, e, rest) =>
    if rest.any (fun c => c = '=') then
      some (heading ++ rest.takeWhile (fun c => !(c = '=' : Bool)))
    else if 3 ≤ e then some heading.dropLast
    else none

/-- Leftmost match of the section regex in `s` (`wikitext.match(regex)`,
main.js line 90). -/
def sectionMatch : Str → Option Str
  | [] => none
  | c :: cs =>
    match sectionAt (c :: cs) with
    | some m => some m
    | none => sectionMatch cs

/-- `findFilmingLocationsFromWikiWikitext` (main.js lines 86-99).  The
argument is `none` when no wikitext is available (the caller passes the
fetch result, whose failure modes all yield `null`); the guard of line 87
also rejects the falsy empty string.  On a match, the section is cleaned by
the four replace passes, split into lines, trimmed, filtered to non-empty
lines of plausible length, and capped at 200 lines. -/
def findFilmingLocationsFromWikiWikitext (w : Option Str) : List Str :=
  match w with
  | none => []
  | some t =>
    if t.isEmpty then []
    else
      match sectionMatch t with
      | none => []
      | some sec =>
        let cleaned := rewriteInternalLinks (removeExtLinks (removeTemplates (removeBold sec)))
        let lines := ((splitOn '\n' cleaned).map trim).filter (fun l => !l.isEmpty)
        let hits := lines.filter (fun l => decide (5 < l.length) && decide (l.length < 400))
        hits.take 200

example : findFilmingLocationsFromWikiWikitext
    (some (("intro text\n== Filming locations ==\nParis, France\n[[Rome]]\n== Cast ==\nmore").data)) =
    [("== Filming locations ==").data, ("Paris, France").data] := by decide

example : findFilmingLocationsFromWikiWikitext
    (some (("== Filming locations ==\nParis, France with no later heading").data)) = [] := by
  decide

example : findFilmingLocationsFromWikiWikitext
    (some (("=== Filming locations ===\nno later heading").data)) =
    [("=== Filming locations ==").data] := by decide

example : findFilmingLocationsFromWikiWikitext (some (("nothing relevant here").data)) = [] := by
  decide

/-! ## Canonicity of `normText`

`normText` output contains no whitespace other than single interior `' '`
characters; on such strings `normText` is the identity.  These lemmas back
the idempotence and deduplication claims. -/

/-- All whitespace characters of `s` are plain spaces. -/
def spacesSingle (s : Str) : Prop := ∀ c ∈ s, isSpaceJs c = true → c = ' '

/-- No two adjacent characters of `s` are both whitespace. -/
def noAdjSpace : Str → Prop
  | a :: b :: rest => (isSpaceJs a = false ∨ isSpaceJs b = false) ∧ noAdjSpace (b :: rest)
  | _ => True

/-- The first character of `s`, when any, is not whitespace. -/
def headNoSpace : Str → Prop
  | c :: _ => isSpaceJs c = false
  | [] => True

/-- The last character of `s`, when any, is not whitespace. -/
def lastNoSpace : Str → Prop
  | [] => True
  | [c] => isSpaceJs c = false
  | _ :: c :: rest => lastNoSpace (c :: rest)

theorem noAdjSpace_tail {c : Char} {s : Str} (h : noAdjSpace (c :: s)) : noAdjSpace s := by
  cases s with
  | nil => trivial
  | cons d ds => exact h.2

theorem noAdjSpace_cons_left {c : Char} {s : Str} (hc : isSpaceJs c = false)
    (h : noAdjSpace s) : noAdjSpace (c :: s) := by
  cases s with
  | nil => trivial
  | cons d ds => exact ⟨Or.inl hc, h⟩

theorem noAdjSpace_cons_right {c : Char} {s : Str} (hs : headNoSpace s)
    (h : noAdjSpace s) : noAdjSpace (c :: s) := by
  cases s with
  | nil => trivial
  | cons d ds => exact ⟨Or.inr hs, h⟩

theorem lastNoSpace_tail {c : Char} {s : Str} (h : lastNoSpace (c :: s)) : lastNoSpace s := by
  cases s with
  | nil => trivial
  | cons d ds => exact h

theorem spacesSingle_wsCollapseAux (b : Bool) (s : Str) :
    spacesSingle (wsCollapseAux b s) := by
  induction s generalizing b with
  | nil => intro c hc; simp [wsCollapseAux] at hc
  | cons c cs ih =>
    intro d hd hsp
    by_cases h : isSpaceJs c = true
    · cases b with
      | true =>
        simp only [wsCollapseAux, h, if_pos] at hd
        exact ih true d hd hsp
      | false =>
        simp only [wsCollapseAux, h, if_pos] at hd
        rcases List.mem_cons.mp hd with h1 | h1
        · exact h1
        · exact ih true d h1 hsp
    · simp only [wsCollapseAux, h, if_neg, Bool.false_eq_true, not_false_iff] at hd
      rcases List.mem_cons.mp hd with h1 | h1
      · subst h1; exact absurd hsp (by simp [h])
      · exact ih false d h1 hsp

theorem headNoSpace_wsCollapseAux_true (s : Str) :
    headNoSpace (wsCollapseAux true s) := by
  induction s with
  | nil => trivial
  | cons c cs ih =>
    by_cases h : isSpaceJs c = true
    · simpa [wsCollapseAux, h] using ih
    · simp only [wsCollapseAux, h, if_neg, Bool.false_eq_true, not_false_iff]
      simpa [headNoSpace] using by simpa using h

theorem noAdjSpace_wsCollapseAux (b : Bool) (s : Str) :
    noAdjSpace (wsCollapseAux b s) := by
  induction s generalizing b with
  | nil => trivial
  | cons c cs ih =>
    by_cases h : isSpaceJs c = true
    · cases b with
      | true => simpa [wsCollapseAux, h] using ih true
      | false =>
        simp only [wsCollapseAux, h, if_pos]
        exact noAdjSpace_cons_right (headNoSpace_wsCollapseAux_true cs) (ih true)
    · simp only [wsCollapseAux, h, if_neg, Bool.false_eq_true, not_false_iff]
      exact noAdjSpace_cons_left (by simpa using h) (ih false)

theorem wsCollapseAux_id (s : Str) (hs : spacesSingle s) (hn : noAdjSpace s) :
    wsCollapseAux false s = s ∧ (headNoSpace s → wsCollapseAux true s = s) := by
  induction s with
  | nil => exact ⟨rfl, fun _ => rfl⟩
  | cons c cs ih =>
    have hs' : spacesSingle cs := fun d hd => hs d (List.mem_cons_of_mem c hd)
    have hn' : noAdjSpace cs := noAdjSpace_tail hn
    have ih' := ih hs' hn'
    by_cases h : isSpaceJs c = true
    · have hc : c = ' ' := hs c (List.mem_cons_self c cs) h
      have hhead : headNoSpace cs := by
        cases cs with
        | nil => trivial
        | cons d ds =>
          rcases hn.1 with h1 | h1
          · exact absurd h (by simp [h1])
          · exact h1
      constructor
      · simp only [wsCollapseAux, h, if_pos]
        rw [ih'.2 hhead, hc]
        simp
      · intro hcontr
        exact absurd h (by simpa [headNoSpace] using hcontr)
    · constructor
      · simp only [wsCollapseAux, h, if_neg, Bool.false_eq_true, not_false_iff]
        rw [ih'.1]
      · intro _
        simp only [wsCollapseAux, h, if_neg, Bool.false_eq_true, not_false_iff]
        rw [ih'.1]

theorem headNoSpace_trimLeft (s : Str) : headNoSpace (trimLeft s) := by
  induction s with
  | nil => trivial
  | cons c cs ih =>
    by_cases h : isSpaceJs c = true
    · simpa [trimLeft, List.dropWhile, h] using ih
    · simpa [trimLeft, List.dropWhile, h, headNoSpace] using by simpa using h

theorem mem_trimLeft {a : Char} {s : Str} (h : a ∈ trimLeft s) : a ∈ s := by
  induction s with
  | nil => simpa [trimLeft, List.dropWhile] using h
  | cons c cs ih =>
    by_cases hc : isSpaceJs c = true
    · simp only [trimLeft, List.dropWhile, hc] at h
      exact List.mem_cons_of_mem c (ih h)
    · simpa [trimLeft, List.dropWhile, hc] using h

theorem noAdjSpace_trimLeft {s : Str} (h : noAdjSpace s) : noAdjSpace (trimLeft s) := by
  induction s with
  | nil => trivial
  | cons c cs ih =>
    by_cases hc : isSpaceJs c = true
    · simpa [trimLeft, List.dropWhile, hc] using ih (noAdjSpace_tail h)
    · simpa [trimLeft, List.dropWhile, hc] using h

theorem lastNoSpace_trimLeft {s : Str} (h : lastNoSpace s) : lastNoSpace (trimLeft s) := by
  induction s with
  | nil => trivial
  | cons c cs ih =>
    by_cases hc : isSpaceJs c = true
    · simpa [trimLeft, List.dropWhile, hc] using ih (lastNoSpace_tail h)
    · simpa [trimLeft, List.dropWhile, hc] using h

theorem trimLeft_id {s : Str} (h : headNoSpace s) : trimLeft s = s := by
  cases s with
  | nil => rfl
  | cons c cs => simp [trimLeft, List.dropWhile, show isSpaceJs c = false from h]

theorem trimRight_head {s : Str} {d : Char} {ds : Str} (h : trimRight s = d :: ds) :
    ∃ t, s = d :: t := by
  cases s with
  | nil => simp [trimRight] at h
  | cons c cs =>
    rw [trimRight] at h
    match hr : trimRight cs with
    | [] =>
      rw [hr] at h
      by_cases hc : isSpaceJs c = true
      · simp [hc] at h
      · simp only [hc, Bool.false_eq_true, if_neg, not_false_iff, List.cons.injEq] at h
        exact ⟨cs, by rw [h.1]⟩
    | r1 :: rs =>
      rw [hr] at h
      simp only [List.cons.injEq] at h
      exact ⟨cs, by rw [h.1]⟩

theorem lastNoSpace_trimRight (s : Str) : lastNoSpace (trimRight s) := by
  induction s with
  | nil => trivial
  | cons c cs ih =>
    rw [trimRight]
    match hr : trimRight cs with
    | [] =>
      by_cases hc : isSpaceJs c = true
      · simp only [hc, if_pos]; trivial
      · simpa [hc, lastNoSpace] using by simpa using hc
    | r1 :: rs =>
      rw [hr] at ih
      exact ih

theorem headNoSpace_trimRight {s : Str} (h : headNoSpace s) : headNoSpace (trimRight s) := by
  cases s with
  | nil => trivial
  | cons c cs =>
    rw [trimRight]
    match hr : trimRight cs with
    | [] =>
      by_cases hc : isSpaceJs c = true
      · simp only [hc, if_pos]; trivial
      · simpa [hc, headNoSpace] using by simpa using hc
    | r1 :: rs => exact h

theorem mem_trimRight {a : Char} {s : Str} (h : a ∈ trimRight s) : a ∈ s := by
  induction s with
  | nil => simpa [trimRight] using h
  | cons c cs ih =>
    rw [trimRight] at h
    match hr : trimRight cs with
    | [] =>
      rw [hr] at h
      by_cases hc : isSpaceJs c = true
      · simp [hc] at h
      · simp only [hc, Bool.false_eq_true, if_neg, not_false_iff, List.mem_singleton] at h
        simp [h]
    | r1 :: rs =>
      rw [hr] at h
      rcases List.mem_cons.mp h with h1 | h1
      · simp [h1]
      · exact List.mem_cons_of_mem c (ih (hr ▸ h1))

theorem noAdjSpace_trimRight {s : Str} (h : noAdjSpace s) : noAdjSpace (trimRight s) := by
  induction s with
  | nil => trivial
  | cons c cs ih =>
    rw [trimRight]
    match hr : trimRight cs with
    | [] => by_cases hc : isSpaceJs c = true <;> simp [hc, noAdjSpace]
    | r1 :: rs =>
      have hih := ih (noAdjSpace_tail h)
      rw [hr] at hih
      obtain ⟨t, ht⟩ := trimRight_head hr
      subst ht
      cases h with
      | intro h1 h2 =>
        rcases h1 with h1 | h1
        · exact noAdjSpace_cons_left h1 hih
        · exact noAdjSpace_cons_right (by simpa [headNoSpace] using h1) hih

theorem trimRight_id {s : Str} (h : lastNoSpace s) : trimRight s = s := by
  induction s with
  | nil => rfl
  | cons c cs ih =>
    rw [trimRight]
    cases cs with
    | nil => simpa [trimRight, lastNoSpace, show isSpaceJs c = false from h] using rfl
    | cons d ds =>
      have : trimRight (d :: ds) = d :: ds := ih h
      rw [this]

/-- The output of `normText` is canonical: all whitespace is a single
interior space. -/
theorem normText_canonical (s : Str) :
    spacesSingle (normText s) ∧ noAdjSpace (normText s) ∧
      headNoSpace (normText s) ∧ lastNoSpace (normText s) := by
  have h1 : spacesSingle (wsCollapse s) := spacesSingle_wsCollapseAux false s
  have h2 : noAdjSpace (wsCollapse s) := noAdjSpace_wsCollapseAux false s
  refine ⟨?_, ?_, ?_, ?_⟩
  · intro c hc
    exact h1 c (mem_trimLeft (mem_trimRight hc))
  · exact noAdjSpace_trimRight (noAdjSpace_trimLeft h2)
  · exact headNoSpace_trimRight (headNoSpace_trimLeft (wsCollapse s))
  · exact lastNoSpace_trimRight (trimLeft (wsCollapse s))

/-- `normText` is the identity on canonical strings. -/
theorem normText_id {s : Str} (h1 : spacesSingle s) (h2 : noAdjSpace s)
    (h3 : headNoSpace s) (h4 : lastNoSpace s) : normText s = s := by
  unfold normText wsCollapse
  rw [(wsCollapseAux_id s h1 h2).1]
  unfold trim
  rw [trimLeft_id h3, trimRight_id h4]

/-- Normalising a phrase twice is the same as normalising it once. -/
theorem normText_idem (s : Str) : normText (normText s) = normText s := by
  obtain ⟨h1, h2, h3, h4⟩ := normText_canonical s
  exact normText_id h1 h2 h3 h4

/-- Every output element of the normalisation loop is a normalised text of
length at least 3 that was not in `seen`. -/
theorem normalizeLoop_mem {l : List Str} {seen : List Str} {t : Str}
    (h : t ∈ normalizeLoop seen l) :
    normText t = t ∧ 3 ≤ t.length ∧ t ∉ seen := by
  induction l generalizing seen with
  | nil => simp [normalizeLoop] at h
  | cons loc rest ih =>
    rw [normalizeLoop] at h
    by_cases h1 : (normText loc).isEmpty || (normText loc).length < 3
    · rw [if_pos h1] at h
      exact ih h
    · rw [if_neg h1] at h
      by_cases h2 : normText loc ∈ seen
      · rw [if_pos h2] at h
        exact ih h
      · rw [if_neg h2] at h
        rcases List.mem_cons.mp h with h3 | h3
        · subst h3
          refine ⟨normText_idem loc, ?_, h2⟩
          simp only [Bool.or_eq_true, decide_eq_true_eq, not_or] at h1
          omega
        · obtain ⟨g1, g2, g3⟩ := ih h3
          exact ⟨g1, g2, fun hc => g3 (List.mem_cons_of_mem _ hc)⟩

/-- The normalisation loop never emits duplicates. -/
theorem normalizeLoop_nodup (l : List Str) (seen : List Str) :
    (normalizeLoop seen l).Nodup := by
  induction l generalizing seen with
  | nil => simp [normalizeLoop]
  | cons loc rest ih =>
    rw [normalizeLoop]
    by_cases h1 : (normText loc).isEmpty || (normText loc).length < 3
    · rw [if_pos h1]; exact ih seen
    · rw [if_neg h1]
      by_cases h2 : normText loc ∈ seen
      · rw [if_pos h2]; exact ih seen
      · rw [if_neg h2]
        refine List.nodup_cons.mpr ⟨fun hc => ?_, ih _⟩
        exact (normalizeLoop_mem hc).2.2 (List.mem_cons_self _ _)

/-- The normalisation loop is the identity on a deduplicated list of
canonical texts disjoint from `seen`. -/
theorem normalizeLoop_id {out : List Str} {seen : List Str}
    (h : ∀ t ∈ out, normText t = t ∧ 3 ≤ t.length ∧ t ∉ seen)
    (hnd : out.Nodup) : normalizeLoop seen out = out := by
  induction out generalizing seen with
  | nil => rfl
  | cons t rest ih =>
    obtain ⟨h1, h2, h3⟩ := h t (List.mem_cons_self t rest)
    rw [normalizeLoop, h1]
    have hne : ¬(t.isEmpty || t.length < 3) = true := by
      simp only [Bool.or_eq_true, decide_eq_true_eq, not_or]
      constructor
      · cases t with
        | nil => simp at h2
        | cons a as => simp
      · omega
    rw [if_neg hne, if_neg h3]
    congr 1
    have hnd' := List.nodup_cons.mp hnd
    refine ih (fun u hu => ?_) hnd'.2
    obtain ⟨g1, g2, g3⟩ := h u (List.mem_cons_of_mem t hu)
    refine ⟨g1, g2, fun hc => ?_⟩
    rcases List.mem_cons.mp hc with hc | hc
    · exact hnd'.1 (hc ▸ hu)
    · exact g3 hc

/-- `trim` is idempotent. -/
theorem trim_idem (s : Str) : trim (trim s) = trim s := by
  unfold trim
  have h3 : headNoSpace (trimRight (trimLeft s)) :=
    headNoSpace_trimRight (headNoSpace_trimLeft s)
  rw [trimLeft_id h3, trimRight_id (lastNoSpace_trimRight (trimLeft s))]

/-! ## Claims -/

/-- Claim C9 (confirmed): the normalisation step — whitespace collapse, trim,
minimum-length filter, first-occurrence dedup (main.js lines 167-176) — is
idempotent: applied to its own output, treated as a single phrase list, it
returns that output unchanged. -/
theorem claim_C9_normalize_idempotent (l : List Str) :
    normalizeCandidates (normalizeCandidates l) = normalizeCandidates l := by
  apply normalizeLoop_id
  · intro t ht
    obtain ⟨h1, h2, _⟩ := normalizeLoop_mem ht
    exact ⟨h1, h2, List.not_mem_nil t⟩
  · exact normalizeLoop_nodup l []

/-- Claim C2, counterexample: two candidate phrases that differ only in
letter case are both retained by the page run's normalisation — the dedup of
main.js line 173 compares exact strings — so the final `location_text`
values are not pairwise distinct under case-insensitive comparison, and it
is false that exactly one record is retained for this pair. -/
theorem claim_C2_counterexample :
    normalizeCandidates [("Paris, France").data, ("PARIS, FRANCE").data] =
      [("Paris, France").data, ("PARIS, FRANCE").data] ∧
    ("Paris, France").data.map lowerChar = ("PARIS, FRANCE").data.map lowerChar ∧
    ("Paris, France").data ≠ ("PARIS, FRANCE").data := by decide

/-- Claim C2 as amended: within one page's run the `location_text` values of
the final record set are pairwise distinct after (case-sensitive)
whitespace-collapsing normalisation, and of two candidate phrases sharing
the same normalised form — e.g. differing only in internal whitespace runs —
exactly the first is retained.  Case variants are not merged (see the
counterexample). -/
theorem claim_C2_unique_location_texts (t y u : Str) (l : List Str) (a b : Str)
    (hab : normText a = normText b) (hlen : 3 ≤ (normText a).length) :
    ((pageRecords t y u l).map LocationRecord.location_text).Nodup ∧
    normalizeCandidates [a, b] = [normText a] := by
  constructor
  · have h1 : (pageRecords t y u l).map LocationRecord.location_text =
        (normalizeCandidates l).take 200 := by
      rw [pageRecords, List.map_map]
      exact List.map_id _
    rw [h1]
    exact (List.take_sublist _ _).nodup (normalizeLoop_nodup l [])
  · have hne : ¬((normText a).isEmpty || decide ((normText a).length < 3)) = true := by
      simp only [Bool.or_eq_true, decide_eq_true_eq, not_or, List.isEmpty_iff]
      refine ⟨fun hc => ?_, by omega⟩
      rw [hc] at hlen
      simp at hlen
    show normalizeLoop [] [a, b] = [normText a]
    rw [normalizeLoop]
    rw [if_neg hne, if_neg (List.not_mem_nil (normText a))]
    rw [normalizeLoop]
    rw [← hab]
    rw [if_neg hne, if_pos (List.mem_singleton.mpr rfl)]
    rw [normalizeLoop]

/-- Claim C2, witness for the amended statement. -/
theorem claim_C2_unique_location_texts_witness :
    ((pageRecords [] [] [] [("Paris, France").data]).map
        LocationRecord.location_text).Nodup ∧
    normalizeCandidates [("Paris, France").data, ("Paris,  France").data] =
      [normText (("Paris, France").data)] := by
  have h := claim_C2_unique_location_texts [] [] [] [("Paris, France").data]
    (("Paris, France").data) (("Paris,  France").data) (by decide) (by decide)
  exact h

/-- Claim C1 (code bug): the emitted record's coordinate fields are meant to
be all-or-nothing, but `coords.latitude || null` (main.js line 200) maps the
parsed latitude `0` — a falsy number — to `null` while the longitude keeps
its value: on the phrase `0.0, 122.5` the parser returns both coordinates,
yet the record carries only the longitude. -/
theorem claim_C1_partial_coordinates :
    tryParseCoordinates (("0.0, 122.5").data) =
      some ⟨decCapValue ⟨false, ['0'], ['0']⟩, decCapValue ⟨false, ['1', '2', '2'], ['5']⟩⟩ ∧
    decCapValue ⟨false, ['0'], ['0']⟩ = 0 ∧
    decCapValue ⟨false, ['1', '2', '2'], ['5']⟩ = 245 / 2 ∧
    (mkRecord [] [] [] (("0.0, 122.5").data)).latitude = none ∧
    (mkRecord [] [] [] (("0.0, 122.5").data)).longitude = some (245 / 2) := by
  have hdec : decFirstMatch (("0.0, 122.5").data) =
      some (⟨false, ['0'], ['0']⟩, ⟨false, ['1', '2', '2'], ['5']⟩) := by decide
  have hparse : tryParseCoordinates (("0.0, 122.5").data) =
      some ⟨decCapValue ⟨false, ['0'], ['0']⟩, decCapValue ⟨false, ['1', '2', '2'], ['5']⟩⟩ := by
    rw [tryParseCoordinates, hdec]
  have d0 : digitsToNat ['0'] = 0 := by decide
  have d1 : digitsToNat ['1', '2', '2'] = 122 := by decide
  have d5 : digitsToNat ['5'] = 5 := by decide
  have hv0 : decCapValue ⟨false, ['0'], ['0']⟩ = 0 := by
    simp [decCapValue, d0]
  have hv1 : decCapValue ⟨false, ['1', '2', '2'], ['5']⟩ = 245 / 2 := by
    simp [decCapValue, d1, d5]
    norm_num
  refine ⟨hparse, hv0, hv1, ?_, ?_⟩
  · simp [mkRecord, hparse, jsOrNullCoord, hv0]
  · simp [mkRecord, hparse, jsOrNullCoord, hv0, hv1]

/-- Claim C3 (code bug): the `validateCoordinates` configuration flag is
destructured from the actor input (main.js line 25) but read nowhere else,
so enabling it does not change the parser's result: a match with latitude
`95.5` (implausible, `|lat| > 90`) is returned, not discarded, with the flag
both enabled and disabled. -/
theorem claim_C3_validate_flag_dead :
    tryParseCoordinatesCfg true (("95.5, 10.5").data) =
      some ⟨decCapValue ⟨false, ['9', '5'], ['5']⟩, decCapValue ⟨false, ['1', '0'], ['5']⟩⟩ ∧
    decCapValue ⟨false, ['9', '5'], ['5']⟩ = 191 / 2 ∧
    (90 : ℚ) < 191 / 2 ∧
    tryParseCoordinatesCfg false (("95.5, 10.5").data) =
      tryParseCoordinatesCfg true (("95.5, 10.5").data) := by
  have hdec : decFirstMatch (("95.5, 10.5").data) =
      some (⟨false, ['9', '5'], ['5']⟩, ⟨false, ['1', '0'], ['5']⟩) := by decide
  refine ⟨?_, ?_, by norm_num, rfl⟩
  · rw [tryParseCoordinatesCfg, tryParseCoordinates, hdec]
  · have d95 : digitsToNat ['9', '5'] = 95 := by decide
    have d5 : digitsToNat ['5'] = 5 := by decide
    simp [decCapValue, d95, d5]
    norm_num

/-- Claim C4 (code bug): the internal-link rewrite of main.js line 94 uses
the replacement `'$2$1'`, so a piped link `[[target|display]]` becomes the
display text concatenated with the target — not the display text alone —
while a pipe-less `[[target]]` does become exactly the target. -/
theorem claim_C4_link_rewrite :
    rewriteInternalLinks (("[[Paris|City of Light]]").data) = ("City of LightParis").data ∧
    rewriteInternalLinks (("[[Paris]]").data) = ("Paris").data ∧
    ("City of LightParis").data ≠ ("City of Light").data := by decide

/-- Projection lemma for `mkRecord`: the `city` field. -/
theorem mkRecord_city (t y u s : Str) :
    (mkRecord t y u s).city =
      (((splitOn ',' s).map trim).filter (fun p => !p.isEmpty)).headD [] := rfl

/-- Projection lemma for `mkRecord`: the `region` field. -/
theorem mkRecord_region (t y u s : Str) :
    (mkRecord t y u s).region =
      (if 3 ≤ (((splitOn ',' s).map trim).filter (fun p => !p.isEmpty)).length
        then (((splitOn ',' s).map trim).filter (fun p => !p.isEmpty)).getD 1 []
        else []) := rfl

/-- Projection lemma for `mkRecord`: the `country` field. -/
theorem mkRecord_country (t y u s : Str) :
    (mkRecord t y u s).country =
      (if (((splitOn ',' s).map trim).filter (fun p => !p.isEmpty)).length = 2
        then (((splitOn ',' s).map trim).filter (fun p => !p.isEmpty)).getD 1 []
        else if 3 ≤ (((splitOn ',' s).map trim).filter (fun p => !p.isEmpty)).length
          then List.intercalate ((", ").data)
            ((((splitOn ',' s).map trim).filter (fun p => !p.isEmpty)).drop 2)
          else []) := rfl

/-- Splitting a string that contains no separator yields the whole string. -/
theorem splitOn_no_sep {sep : Char} {s : Str} (h : ∀ c ∈ s, c ≠ sep) :
    splitOn sep s = [s] := by
  induction s with
  | nil => rfl
  | cons c cs ih =>
    rw [splitOn, if_neg (h c (List.mem_cons_self c cs))]
    rw [ih (fun d hd => h d (List.mem_cons_of_mem c hd))]

/-- Claim C5 (confirmed): structural fields derive from the comma split of
the phrase (main.js lines 182-191).  A phrase without commas (trimmed,
non-empty) becomes the `city` whole, with `region` and `country` empty; two
segments give `city` and `country`; three or more give `city`, `region` and
the remaining segments rejoined with a comma and space as `country`; and the
phrase `Golden Gate Bridge, San Francisco, 37.8199, -122.4783` produces
exactly the heuristically misassigned fields together with both
coordinates. -/
theorem claim_C5_field_derivation (t y u locText : Str) :
    ((∀ c ∈ locText, c ≠ ',') → trim locText = locText → locText ≠ [] →
      (mkRecord t y u locText).city = locText ∧
      (mkRecord t y u locText).region = [] ∧
      (mkRecord t y u locText).country = []) ∧
    ((((splitOn ',' locText).map trim).filter (fun p => !p.isEmpty)).length = 2 →
      (mkRecord t y u locText).city =
        (((splitOn ',' locText).map trim).filter (fun p => !p.isEmpty)).headD [] ∧
      (mkRecord t y u locText).region = [] ∧
      (mkRecord t y u locText).country =
        (((splitOn ',' locText).map trim).filter (fun p => !p.isEmpty)).getD 1 []) ∧
    (3 ≤ (((splitOn ',' locText).map trim).filter (fun p => !p.isEmpty)).length →
      (mkRecord t y u locText).city =
        (((splitOn ',' locText).map trim).filter (fun p => !p.isEmpty)).headD [] ∧
      (mkRecord t y u locText).region =
        (((splitOn ',' locText).map trim).filter (fun p => !p.isEmpty)).getD 1 [] ∧
      (mkRecord t y u locText).country =
        List.intercalate ((", ").data)
          ((((splitOn ',' locText).map trim).filter (fun p => !p.isEmpty)).drop 2)) ∧
    ((mkRecord t y u (("Golden Gate Bridge, San Francisco, 37.8199, -122.4783").data)).city =
        ("Golden Gate Bridge").data ∧
      (mkRecord t y u (("Golden Gate Bridge, San Francisco, 37.8199, -122.4783").data)).region =
        ("San Francisco").data ∧
      (mkRecord t y u (("Golden Gate Bridge, San Francisco, 37.8199, -122.4783").data)).country =
        ("37.8199, -122.4783").data ∧
      (mkRecord t y u (("Golden Gate Bridge, San Francisco, 37.8199, -122.4783").data)).latitude =
        some (378199 / 10000) ∧
      (mkRecord t y u (("Golden Gate Bridge, San Francisco, 37.8199, -122.4783").data)).longitude =
        some (-(1224783 / 10000))) := by
  refine ⟨?_, ?_, ?_, ?_⟩
  · intro hnc htr hne
    have hsplit : splitOn ',' locText = [locText] := splitOn_no_sep hnc
    have hparts : ((splitOn ',' locText).map trim).filter (fun p => !p.isEmpty) = [locText] := by
      rw [hsplit]
      simp only [List.map_cons, List.map_nil, htr, List.filter]
      cases locText with
      | nil => exact absurd rfl hne
      | cons a as => rfl
    simp [mkRecord, hparts]
  · intro hlen
    refine ⟨rfl, ?_, ?_⟩
    · simp only [mkRecord]
      rw [if_neg (by omega)]
    · simp only [mkRecord]
      rw [if_pos hlen]
  · intro hlen
    refine ⟨rfl, ?_, ?_⟩
    · simp only [mkRecord]
      rw [if_pos hlen]
    · simp only [mkRecord]
      rw [if_neg (by omega), if_pos hlen]
  · have hdec : decFirstMatch (("Golden Gate Bridge, San Francisco, 37.8199, -122.4783").data) =
        some (⟨false, ['3', '7'], ['8', '1', '9', '9']⟩,
              ⟨true, ['1', '2', '2'], ['4', '7', '8', '3']⟩) := by decide
    have hparse : tryParseCoordinates
        (("Golden Gate Bridge, San Francisco, 37.8199, -122.4783").data) =
        some ⟨decCapValue ⟨false, ['3', '7'], ['8', '1', '9', '9']⟩,
              decCapValue ⟨true, ['1', '2', '2'], ['4', '7', '8', '3']⟩⟩ := by
      rw [tryParseCoordinates, hdec]
    have d1 : digitsToNat ['3', '7'] = 37 := by decide
    have d2 : digitsToNat ['8', '1', '9', '9'] = 8199 := by decide
    have d3 : digitsToNat ['1', '2', '2'] = 122 := by decide
    have d4 : digitsToNat ['4', '7', '8', '3'] = 4783 := by decide
    have hv1 : decCapValue ⟨false, ['3', '7'], ['8', '1', '9', '9']⟩ = 378199 / 10000 := by
      simp [decCapValue, d1, d2]
      norm_num
    have hv2 : decCapValue ⟨true, ['1', '2', '2'], ['4', '7', '8', '3']⟩ = -(1224783 / 10000) := by
      simp [decCapValue, d3, d4]
      norm_num
    refine ⟨by rw [mkRecord_city]; decide, by rw [mkRecord_region]; decide,
      by rw [mkRecord_country]; decide, ?_, ?_⟩
    · simp [mkRecord, hparse, jsOrNullCoord, hv1]
    · simp [mkRecord, hparse, jsOrNullCoord, hv2]

/-- Claim C5, witness: the three conditional clauses discharged at concrete
phrases, together with the unconditional end-to-end scenario. -/
theorem claim_C5_field_derivation_witness :
    ((mkRecord [] [] [] (("Paris").data)).city = ("Paris").data ∧
      (mkRecord [] [] [] (("Paris").data)).region = [] ∧
      (mkRecord [] [] [] (("Paris").data)).country = []) ∧
    ((mkRecord [] [] [] (("Paris, France").data)).city =
        ((((splitOn ',' (("Paris, France").data)).map trim).filter
            (fun p => !p.isEmpty)).headD []) ∧
      (mkRecord [] [] [] (("Paris, France").data)).region = [] ∧
      (mkRecord [] [] [] (("Paris, France").data)).country =
        ((((splitOn ',' (("Paris, France").data)).map trim).filter
            (fun p => !p.isEmpty)).getD 1 [])) ∧
    (mkRecord [] [] [] (("Golden Gate Bridge, San Francisco, 37.8199, -122.4783").data)).city =
      ("Golden Gate Bridge").data := by
  refine ⟨(claim_C5_field_derivation [] [] [] (("Paris").data)).1
      (by decide) (by decide) (by decide),
    (claim_C5_field_derivation [] [] [] (("Paris, France").data)).2.1 (by decide),
    ((claim_C5_field_derivation [] [] []
      (("Golden Gate Bridge, San Francisco, 37.8199, -122.4783").data)).2.2.2).1⟩

/-- Claim C6 (confirmed): in the merge of main.js lines 116-165 the fallback
paragraph scan contributes only when the DOM-heading and layout-specific
steps together produced zero candidates, and a non-empty markup-based result
(when that path is active) is prepended before all other strategies'
phrases. -/
theorem claim_C6_strategy_order (dom : List Str) (isImdbUrl hasElem : Bool)
    (imdbCands paragraphs : List Str) (wikiAv : Bool) (wikiLocs : List Str) :
    (imdbStep isImdbUrl hasElem imdbCands dom ≠ [] →
      mergeCandidates dom isImdbUrl hasElem imdbCands paragraphs wikiAv wikiLocs =
        wikiStep wikiAv wikiLocs (imdbStep isImdbUrl hasElem imdbCands dom)) ∧
    (imdbStep isImdbUrl hasElem imdbCands dom = [] →
      mergeCandidates dom isImdbUrl hasElem imdbCands paragraphs wikiAv wikiLocs =
        wikiStep wikiAv wikiLocs (paragraphs.filter keywordTest)) ∧
    (wikiAv = true → wikiLocs ≠ [] →
      mergeCandidates dom isImdbUrl hasElem imdbCands paragraphs wikiAv wikiLocs =
        wikiLocs ++
          fallbackStep paragraphs (imdbStep isImdbUrl hasElem imdbCands dom)) := by
  refine ⟨?_, ?_, ?_⟩
  · intro h
    rw [mergeCandidates, fallbackStep,
      if_neg (by simpa [List.isEmpty_iff] using h)]
  · intro h
    rw [mergeCandidates, fallbackStep, h]
    simp
  · intro h1 h2
    rw [mergeCandidates, wikiStep,
      if_pos (by simp [h1, List.isEmpty_iff, h2])]

/-- Claim C6, witness: both activation regimes of the fallback clause and
the markup-prepending clause at concrete inputs. -/
theorem claim_C6_strategy_order_witness :
    mergeCandidates [("Paris").data] false false [] [("some location text").data]
        true [("Rome").data] =
      wikiStep true [("Rome").data] (imdbStep false false [] [("Paris").data]) ∧
    mergeCandidates [] false false [] [("some location text").data] false [] =
      wikiStep false [] ([("some location text").data].filter keywordTest) ∧
    mergeCandidates [("Paris").data] false false [] [] true [("Rome").data] =
      [("Rome").data] ++
        fallbackStep [] (imdbStep false false [] [("Paris").data]) := by
  refine ⟨(claim_C6_strategy_order [("Paris").data] false false []
      [("some location text").data] true [("Rome").data]).1 (by decide),
    (claim_C6_strategy_order [] false false [] [("some location text").data] false []).2.1
      (by decide),
    (claim_C6_strategy_order [("Paris").data] false false [] [] true [("Rome").data]).2.2
      rfl (by decide)⟩

/-- Claim C7 (confirmed): whenever the decimal branch finds nothing and the
DMS regex matches, the parsed coordinate is
`deg + min/60 + sec/3600` per axis (absent seconds count 0), negated exactly
when the upper-cased hemisphere letter is `S` (latitude) or `W`
(longitude). -/
theorem claim_C7_dms_conversion (t : Str) (g : DmsRaw)
    (hdec : decFirstMatch t = none) (hdms : dmsFirstMatch t = some g) :
    tryParseCoordinates t = some
      ⟨((digitsToNat g.latDeg : ℚ) + (digitsToNat g.latMin : ℚ) / 60 +
            secValue g.latSec / 3600) *
          (if upperHem g.latHem = 'S' then -1 else 1),
        ((digitsToNat g.lonDeg : ℚ) + (digitsToNat g.lonMin : ℚ) / 60 +
            secValue g.lonSec / 3600) *
          (if upperHem g.lonHem = 'W' then -1 else 1)⟩ := by
  simp only [tryParseCoordinates, hdec, hdms, dmsLatValue, dmsLonValue]

/-- Claim C7, witness: `37°46′29″N 122°25′10″W` parses to latitude
`37 + 46/60 + 29/3600` and longitude `-(122 + 25/60 + 10/3600)`. -/
theorem claim_C7_dms_conversion_witness :
    tryParseCoordinates (("37°46′29″N 122°25′10″W").data) =
      some ⟨(37 : ℚ) + 46 / 60 + 29 / 3600, -((122 : ℚ) + 25 / 60 + 10 / 3600)⟩ := by
  have h := claim_C7_dms_conversion (("37°46′29″N 122°25′10″W").data)
    ⟨['3', '7'], ['4', '6'], some (['2', '9'], []), 'N',
      ['1', '2', '2'], ['2', '5'], some (['1', '0'], []), 'W'⟩
    (by decide) (by decide)
  rw [h]
  have d37 : digitsToNat ['3', '7'] = 37 := by decide
  have d46 : digitsToNat ['4', '6'] = 46 := by decide
  have d29 : digitsToNat ['2', '9'] = 29 := by decide
  have d122 : digitsToNat ['1', '2', '2'] = 122 := by decide
  have d25 : digitsToNat ['2', '5'] = 25 := by decide
  have d10 : digitsToNat ['1', '0'] = 10 := by decide
  have dnil : digitsToNat [] = 0 := rfl
  have hN : upperHem 'N' = 'N' := by decide
  have hW : upperHem 'W' = 'W' := by decide
  simp [secValue, d37, d46, d29, d122, d25, d10, dnil, hN, hW]

/-- Claim C10, counterexample: the text `37.7749° N, 122.4194° W` — the very
example of the claim (and of the source comment on main.js line 38) — matches
neither branch of the parser: the `° N,` between the numbers defeats the
decimal separator `\s*[,\s]\s*`, and the numbers carry no DMS minute
markers, so the parser returns `null` rather than a pair with longitude
`+122.4194`. -/
theorem claim_C10_counterexample :
    tryParseCoordinates (("37.7749° N, 122.4194° W").data) = none := by decide

/-- Claim C10 as amended: the decimal branch takes precedence over the DMS
branch and ignores hemisphere letters — whenever the decimal regex finds a
match, its two numbers are returned with the signs as literally written, any
hemisphere letters notwithstanding — but the numbers must be directly
separated by whitespace and at most one comma, which the claim's example
text is not (see the counterexample). -/
theorem claim_C10_decimal_precedence (t : Str) (a b : DecCap)
    (h : decFirstMatch t = some (a, b)) :
    tryParseCoordinates t = some ⟨decCapValue a, decCapValue b⟩ := by
  simp only [tryParseCoordinates, h]

/-- Claim C10, witness for the amended statement: in `-37.5, 122.4194 W` the
trailing `W` is ignored and the longitude keeps its literal positive sign,
while the latitude keeps its literal minus sign. -/
theorem claim_C10_decimal_precedence_witness :
    tryParseCoordinates (("-37.5, 122.4194 W").data) =
      some ⟨decCapValue ⟨true, ['3', '7'], ['5']⟩,
            decCapValue ⟨false, ['1', '2', '2'], ['4', '1', '9', '4']⟩⟩ ∧
    decCapValue ⟨true, ['3', '7'], ['5']⟩ = -(75 / 2) ∧
    decCapValue ⟨false, ['1', '2', '2'], ['4', '1', '9', '4']⟩ = 1224194 / 10000 := by
  refine ⟨claim_C10_decimal_precedence _ _ _ (by decide), ?_, ?_⟩
  · have d37 : digitsToNat ['3', '7'] = 37 := by decide
    have d5 : digitsToNat ['5'] = 5 := by decide
    simp [decCapValue, d37, d5]
    norm_num
  · have d122 : digitsToNat ['1', '2', '2'] = 122 := by decide
    have d4194 : digitsToNat ['4', '1', '9', '4'] = 4194 := by decide
    simp [decCapValue, d122, d4194]
    norm_num

/-- Claim C8 (confirmed): every line emitted by the markup extractor is
non-empty, trimmed, and of length within the plausible 5-400 range (the
source keeps strictly `5 < length < 400`, hence within the range); at most
200 lines are emitted; and an absent input or an input without a matching
`Filming locations` section yields the empty list, not an error. -/
theorem claim_C8_markup_extractor_output (w : Option Str) :
    (∀ l ∈ findFilmingLocationsFromWikiWikitext w,
      l ≠ [] ∧ trim l = l ∧ 5 ≤ l.length ∧ l.length ≤ 400) ∧
    (findFilmingLocationsFromWikiWikitext w).length ≤ 200 ∧
    findFilmingLocationsFromWikiWikitext none = [] ∧
    (∀ t, w = some t → sectionMatch t = none →
      findFilmingLocationsFromWikiWikitext w = []) := by
  refine ⟨?_, ?_, rfl, ?_⟩
  · intro l hl
    match w with
    | none => simp [findFilmingLocationsFromWikiWikitext] at hl
    | some t =>
      simp only [findFilmingLocationsFromWikiWikitext] at hl
      by_cases hemp : t.isEmpty
      · rw [if_pos hemp] at hl
        simp at hl
      · rw [if_neg hemp] at hl
        match hs : sectionMatch t with
        | none => rw [hs] at hl; simp at hl
        | some sec =>
          rw [hs] at hl
          have h2 := (List.take_sublist 200 _).mem hl
          have h3 := List.mem_filter.mp h2
          have h4 := List.mem_filter.mp h3.1
          obtain ⟨x, _, hx⟩ := List.mem_map.mp h4.1
          have hb := h3.2
          simp only [Bool.and_eq_true, decide_eq_true_eq] at hb
          refine ⟨?_, ?_, by omega, by omega⟩
          · have := h4.2
            simpa [List.isEmpty_iff] using this
          · rw [← hx]
            exact trim_idem x
  · match w with
    | none => simp [findFilmingLocationsFromWikiWikitext]
    | some t =>
      simp only [findFilmingLocationsFromWikiWikitext]
      by_cases hemp : t.isEmpty
      · rw [if_pos hemp]; simp
      · rw [if_neg hemp]
        match hs : sectionMatch t with
        | none => simp
        | some sec => exact List.length_take_le 200 _
  · intro t ht hs
    subst ht
    simp only [findFilmingLocationsFromWikiWikitext, hs]
    by_cases hemp : t.isEmpty
    · rw [if_pos hemp]
    · rw [if_neg hemp]

/-- Claim C8, witness: on a concrete wikitext the clauses instantiate — the
line `Paris, France` of the matched section satisfies the bounds, and a
wikitext without a matching section yields the empty list. -/
theorem claim_C8_markup_extractor_output_witness :
    (("Paris, France").data ≠ [] ∧ trim (("Paris, France").data) = ("Paris, France").data ∧
      5 ≤ (("Paris, France").data : Str).length ∧ (("Paris, France").data : Str).length ≤ 400) ∧
    findFilmingLocationsFromWikiWikitext (some (("no headings at all").data)) = [] := by
  constructor
  · exact (claim_C8_markup_extractor_output
      (some (("== Filming locations ==\nParis, France\n== Cast ==").data))).1
      (("Paris, France").data) (by decide)
  · exact (claim_C8_markup_extractor_output
      (some (("no headings at all").data))).2.2.2 (("no headings at all").data) rfl (by decide)

/-- Claim C7, counterexample to the unconditional statement: a text that
matches the DMS pattern but also contains an earlier decimal pair is parsed
by the decimal branch, so its parsed coordinate is not the DMS conversion of
the matched degrees/minutes/seconds. -/
theorem claim_C7_counterexample :
    (dmsFirstMatch (("0.5, 0.5 37°46′29″N 122°25′10″W").data)).isSome = true ∧
    tryParseCoordinates (("0.5, 0.5 37°46′29″N 122°25′10″W").data) =
      some ⟨decCapValue ⟨false, ['0'], ['5']⟩, decCapValue ⟨false, ['0'], ['5']⟩⟩ ∧
    decCapValue ⟨false, ['0'], ['5']⟩ = 1 / 2 ∧
    (1 / 2 : ℚ) ≠ ((37 : ℚ) + 46 / 60 + 29 / 3600) := by
  have hdec : decFirstMatch (("0.5, 0.5 37°46′29″N 122°25′10″W").data) =
      some (⟨false, ['0'], ['5']⟩, ⟨false, ['0'], ['5']⟩) := by decide
  refine ⟨by decide, ?_, ?_, by norm_num⟩
  · rw [tryParseCoordinates, hdec]
  · have d0 : digitsToNat ['0'] = 0 := by decide
    have d5 : digitsToNat ['5'] = 5 := by decide
    simp [decCapValue, d0, d5]
    norm_num
